import Mathlib

/-!
Verification of the core tick-to-execution pipeline of the robo_trader
repository: position/PnL accounting (core/position.py), the risk and
inventory gates (core/risk.py, core/inventory.py), the trading engine's
event emission (core/engine.py), the backtest fill model
(core/backtest.py) and the mean-reversion strategy
(strategies/mean_reversion_v1.py).

Modelling conventions:
* Python floats are embedded as exact rationals; the mean-reversion
  strategy, whose z-score takes a square root, is embedded over the reals.
  Where rounding itself is load-bearing — the universally quantified flat
  invariant of the position manager — the same source is additionally
  embedded under IEEE-754 binary64 round-to-nearest-even arithmetic
  (FloatPositionManager), with every binary arithmetic operation rounded
  and comparisons, abs, min and negation exact, as in binary64.
* Python string enumerations ("BUY"/"SELL", "MARKET"/"LIMIT", event type
  tags) are embedded as inductive types; all call sites in the repository
  construct them from the corresponding Literal types of core/strategy.py.
* Python exceptions are embedded as explicit outcomes paired with the
  mutated state, so mutations that precede a raise persist exactly as in
  the source.
* The execution client is the dry-run mock of core/execution.py:
  get_account_equity returns a configured constant and send_order has no
  effect on engine state; the constant is a parameter of the engine
  configuration.
-/

namespace RoboTrader

/-- Order side: the Side literal of core/strategy.py. -/
inductive Side where
  | BUY
  | SELL
deriving DecidableEq

/-- Direction of a side, the `1 if side == "BUY" else -1` idiom of
core/position.py and core/inventory.py. -/
def Side.dir : Side → ℚ
  | .BUY => 1
  | .SELL => -1

/-- Order type: the OrderType literal of core/strategy.py. -/
inductive OrderType where
  | MARKET
  | LIMIT
deriving DecidableEq

/-- The exception kinds raised by the core and distinguished by the
engine's handlers: ValueError (argument errors), CircuitBreakerTripped
(core/risk.py) and InventoryLimitExceeded (core/inventory.py). -/
inductive Exn where
  | valueError
  | circuitBreakerTripped
  | inventoryLimitExceeded
deriving DecidableEq

/-- A strategy order intent: the Signal dataclass of core/strategy.py,
parametric in the numeric type (rationals in the engine, reals in the
mean-reversion strategy). -/
structure Signal (α : Type) where
  side : Side
  size : α
  order_type : OrderType
  price : Option α
  tag : Option String
deriving DecidableEq

/-- Snapshot of the position state: the PositionState dataclass and the
three fields of PositionManager in core/position.py. -/
structure PositionState where
  qty : ℚ
  avg_price : ℚ
  realized_pnl : ℚ
deriving DecidableEq

/-- The state of a freshly constructed PositionManager. -/
def initPosition : PositionState := ⟨0, 0, 0⟩

namespace PositionManager

/-- PositionManager._open_new_position. -/
def open_new_position (s : PositionState) (side : Side) (qty price : ℚ) :
    PositionState :=
  { s with qty := side.dir * qty, avg_price := price }

/-- PositionManager._add_to_position. -/
def add_to_position (s : PositionState) (qty price direction : ℚ) :
    PositionState :=
  let old_abs_qty := |s.qty|
  let new_abs_qty := old_abs_qty + qty
  { s with
    avg_price := (s.avg_price * old_abs_qty + price * qty) / new_abs_qty,
    qty := direction * new_abs_qty }

/-- PositionManager._close_or_reverse. -/
def close_or_reverse (s : PositionState) (qty price trade_dir : ℚ) :
    PositionState :=
  let current_dir : ℚ := if 0 < s.qty then 1 else -1
  let abs_pos := |s.qty|
  let close_qty := min abs_pos qty
  let pnl := (price - s.avg_price) * close_qty * current_dir
  let s' := { s with realized_pnl := s.realized_pnl + pnl }
  if qty = abs_pos then
    { s' with qty := 0, avg_price := 0 }
  else if qty < abs_pos then
    { s' with qty := current_dir * (abs_pos - qty) }
  else
    { s' with qty := trade_dir * (qty - abs_pos), avg_price := price }

/-- PositionManager.on_trade.  The returned pair carries the outcome
(ValueError for non-positive qty; the invalid-side ValueError cannot arise
because Side is intrinsically valid) and the state after the call. -/
def on_trade (s : PositionState) (side : Side) (qty price : ℚ) :
    Except Exn Unit × PositionState :=
  if qty ≤ 0 then (.error .valueError, s)
  else if s.qty = 0 then (.ok (), open_new_position s side qty price)
  else
    let current_dir : ℚ := if 0 < s.qty then 1 else -1
    let trade_dir := side.dir
    if current_dir = trade_dir then (.ok (), add_to_position s qty price trade_dir)
    else (.ok (), close_or_reverse s qty price trade_dir)

/-- PositionManager.unrealized_pnl. -/
def unrealized_pnl (s : PositionState) (current_price : ℚ) : ℚ :=
  if s.qty = 0 then 0
  else
    let direction : ℚ := if 0 < s.qty then 1 else -1
    (current_price - s.avg_price) * |s.qty| * direction

end PositionManager

/-- One executed trade fed to PositionManager.on_trade. -/
structure Trade where
  side : Side
  qty : ℚ
  price : ℚ

/-- Feeding a list of trades to a PositionManager in order, keeping the
post-call state whether or not the call raised (a raising call leaves the
state unchanged). -/
def apply_trades (s : PositionState) : List Trade → PositionState
  | [] => s
  | t :: ts => apply_trades (PositionManager.on_trade s t.side t.qty t.price).2 ts

/-- The signed sum of a trade list: BUY counted positive, SELL negative. -/
def signed_sum : List Trade → ℚ
  | [] => 0
  | t :: ts => t.side.dir * t.qty + signed_sum ts

/-- Round x to the nearest integer multiple of 2 ^ k, ties to even: the
IEEE-754 rounding of an exact value onto the grid with unit 2 ^ k. -/
def round_to_grid (k : ℤ) (x : ℚ) : ℚ :=
  let m := x / (2 : ℚ) ^ k
  let n := ⌊m⌋
  let f := m - (n : ℚ)
  let n' : ℤ :=
    if f < 1 / 2 then n
    else if 1 / 2 < f then n + 1
    else if Even n then n else n + 1
  (n' : ℚ) * (2 : ℚ) ^ k

/-- IEEE-754 binary64 round to nearest, ties to even, for values in the
normal range (the only values the traces below reach): binary64 carries a
53-bit significand, so the unit in the last place of x is 2 ^ (e - 52)
with e = ⌊log₂ |x|⌋. -/
def rnd64 (x : ℚ) : ℚ :=
  if x = 0 then 0 else round_to_grid (Int.log 2 |x| - 52) x

/-- A binary64 addition of the Python source: exact sum, then rounded. -/
def fadd (x y : ℚ) : ℚ := rnd64 (x + y)

/-- A binary64 subtraction of the Python source. -/
def fsub (x y : ℚ) : ℚ := rnd64 (x - y)

/-- A binary64 multiplication of the Python source. -/
def fmul (x y : ℚ) : ℚ := rnd64 (x * y)

/-- A binary64 division of the Python source. -/
def fdiv (x y : ℚ) : ℚ := rnd64 (x / y)

/-!
core/position.py under the source's own IEEE binary64 arithmetic:
identical to the PositionManager embedding above except that every
arithmetic operation rounds its exact result to the nearest double
(comparisons, abs, min and negation are exact in binary64).
-/

namespace FloatPositionManager

/-- PositionManager._open_new_position in binary64. -/
def open_new_position (s : PositionState) (side : Side) (qty price : ℚ) :
    PositionState :=
  { s with qty := fmul side.dir qty, avg_price := price }

/-- PositionManager._add_to_position in binary64. -/
def add_to_position (s : PositionState) (qty price direction : ℚ) :
    PositionState :=
  let old_abs_qty := |s.qty|
  let new_abs_qty := fadd old_abs_qty qty
  { s with
    avg_price := fdiv (fadd (fmul s.avg_price old_abs_qty) (fmul price qty))
      new_abs_qty,
    qty := fmul direction new_abs_qty }

/-- PositionManager._close_or_reverse in binary64. -/
def close_or_reverse (s : PositionState) (qty price trade_dir : ℚ) :
    PositionState :=
  let current_dir : ℚ := if 0 < s.qty then 1 else -1
  let abs_pos := |s.qty|
  let close_qty := min abs_pos qty
  let pnl := fmul (fmul (fsub price s.avg_price) close_qty) current_dir
  let s' := { s with realized_pnl := fadd s.realized_pnl pnl }
  if qty = abs_pos then
    { s' with qty := 0, avg_price := 0 }
  else if qty < abs_pos then
    { s' with qty := fmul current_dir (fsub abs_pos qty) }
  else
    { s' with qty := fmul trade_dir (fsub qty abs_pos), avg_price := price }

/-- PositionManager.on_trade in binary64. -/
def on_trade (s : PositionState) (side : Side) (qty price : ℚ) :
    Except Exn Unit × PositionState :=
  if qty ≤ 0 then (.error .valueError, s)
  else if s.qty = 0 then (.ok (), open_new_position s side qty price)
  else
    let current_dir : ℚ := if 0 < s.qty then 1 else -1
    let trade_dir := side.dir
    if current_dir = trade_dir then (.ok (), add_to_position s qty price trade_dir)
    else (.ok (), close_or_reverse s qty price trade_dir)

end FloatPositionManager

/-- Feeding a list of trades to a PositionManager under binary64
arithmetic. -/
def apply_trades_float (s : PositionState) : List Trade → PositionState
  | [] => s
  | t :: ts =>
      apply_trades_float (FloatPositionManager.on_trade s t.side t.qty t.price).2 ts

/-- The RiskLimits dataclass of core/risk.py. -/
structure RiskLimits where
  max_daily_loss_pct : ℚ
  max_daily_loss_value : ℚ
  max_position_size_pct : ℚ
  max_open_trades : ℕ
  circuit_breaker_enabled : Bool
deriving DecidableEq

/-- The mutable state of a RiskManager (core/risk.py). -/
structure RiskState where
  daily_pnl : ℚ
  open_trades : ℕ
  circuit_breaker_hit : Bool
deriving DecidableEq

/-- The state of a freshly constructed RiskManager. -/
def initRisk : RiskState := ⟨0, 0, false⟩

namespace RiskManager

/-- RiskManager._trigger_circuit_breaker: sets the latch and raises. -/
def trigger_circuit_breaker (s : RiskState) : Except Exn Unit × RiskState :=
  (.error .circuitBreakerTripped, { s with circuit_breaker_hit := true })

/-- RiskManager._check_daily_loss. -/
def check_daily_loss (L : RiskLimits) (s : RiskState) :
    Except Exn Unit × RiskState :=
  if ¬ L.circuit_breaker_enabled then (.ok (), s)
  else if 0 ≤ s.daily_pnl then (.ok (), s)
  else if L.max_daily_loss_value ≤ |s.daily_pnl| then trigger_circuit_breaker s
  else (.ok (), s)

/-- RiskManager.register_trade_pnl. -/
def register_trade_pnl (L : RiskLimits) (s : RiskState) (pnl : ℚ) :
    Except Exn Unit × RiskState :=
  if s.circuit_breaker_hit then (.ok (), s)
  else check_daily_loss L { s with daily_pnl := s.daily_pnl + pnl }

/-- RiskManager.increment_open_trades.  The counter is incremented before
the cap check, and the raise does not roll it back. -/
def increment_open_trades (L : RiskLimits) (s : RiskState) :
    Except Exn Unit × RiskState :=
  if s.circuit_breaker_hit then (.error .circuitBreakerTripped, s)
  else
    let s' := { s with open_trades := s.open_trades + 1 }
    if L.max_open_trades < s'.open_trades then (.error .circuitBreakerTripped, s')
    else (.ok (), s')

/-- RiskManager.decrement_open_trades; max(0, n - 1) is ℕ subtraction. -/
def decrement_open_trades (s : RiskState) : RiskState :=
  { s with open_trades := s.open_trades - 1 }

/-- RiskManager.validate_position_size. -/
def validate_position_size (L : RiskLimits) (s : RiskState)
    (account_equity position_notional : ℚ) : Except Exn Unit × RiskState :=
  if s.circuit_breaker_hit then (.error .circuitBreakerTripped, s)
  else if account_equity ≤ 0 then (.error .valueError, s)
  else if L.max_position_size_pct < position_notional / account_equity * 100 then
    (.error .circuitBreakerTripped, s)
  else (.ok (), s)

end RiskManager

/-- One public RiskManager call, for quantifying over call sequences. -/
inductive RiskOp where
  | register (pnl : ℚ)
  | increment
  | decrement
  | validate (account_equity position_notional : ℚ)

/-- The state reached after a RiskManager call, whatever its outcome. -/
def RiskOp.apply (L : RiskLimits) (s : RiskState) : RiskOp → RiskState
  | .register pnl => (RiskManager.register_trade_pnl L s pnl).2
  | .increment => (RiskManager.increment_open_trades L s).2
  | .decrement => RiskManager.decrement_open_trades s
  | .validate e n => (RiskManager.validate_position_size L s e n).2

/-- The state reached after a sequence of RiskManager calls. -/
def run_risk_ops (L : RiskLimits) (s : RiskState) : List RiskOp → RiskState
  | [] => s
  | op :: ops => run_risk_ops L (op.apply L s) ops

/-- The InventoryLimits dataclass of core/inventory.py. -/
structure InventoryLimits where
  max_abs_qty : ℚ
  max_notional_pct : ℚ
deriving DecidableEq

namespace InventoryRiskManager

/-- InventoryRiskManager.validate_inventory.  The source method reads only
self.limits and its arguments and assigns no attribute, so it embeds as a
pure function of the limits and the arguments; Side is intrinsically
valid, so the invalid-side ValueError branch cannot arise. -/
def validate_inventory (L : InventoryLimits) (current_qty : ℚ)
    (trade_side : Side) (trade_qty price account_equity : ℚ) :
    Except Exn Unit :=
  if trade_qty ≤ 0 then .error .valueError
  else if account_equity ≤ 0 then .error .valueError
  else
    let trade_dir := trade_side.dir
    let new_qty := current_qty + trade_dir * trade_qty
    let abs_new_qty := |new_qty|
    if L.max_abs_qty < abs_new_qty then .error .inventoryLimitExceeded
    else
      let pct_equity := abs_new_qty * price / account_equity * 100
      if L.max_notional_pct < pct_equity then .error .inventoryLimitExceeded
      else .ok ()

end InventoryRiskManager

/-- The reason tag of a signal_rejected event (core/engine.py emits only
the inventory reason). -/
inductive RejectReason where
  | inventory_limit_exceeded
deriving DecidableEq

/-- An EngineEvent of core/engine.py: the type tag plus the payload
fields the specification refers to (free-form observability entries such
as message strings and the dry-run order response are omitted). -/
inductive EngineEvent where
  | trade_executed (side : Side) (size price : ℚ) (tag : Option String)
      (trade_pnl realized_pnl_total position_qty position_avg_price equity : ℚ)
  | signal_rejected (reason : RejectReason) (side : Side) (size price : ℚ)
      (tag : Option String)
  | circuit_breaker
  | error_event
deriving DecidableEq

/-- The TradingEngine's collaborators and configuration: the risk and
inventory limits, the constant equity returned by the dry-run execution
client's get_account_equity, and the raise_on_circuit_breaker flag. -/
structure EngineCfg where
  riskLimits : RiskLimits
  invLimits : InventoryLimits
  equity : ℚ
  raise_on_circuit_breaker : Bool

/-- The TradingEngine's mutable state (logger and the observability-only
fields last_tick / last_signals / last_error are omitted). -/
structure EngineState where
  position : PositionState
  risk : RiskState
  running : Bool
  tick_count : ℕ
  trade_count : ℕ
  last_equity : Option ℚ
deriving DecidableEq

/-- Fill-price determination at the top of TradingEngine._process_signal:
tick last for MARKET, the signal's own price for LIMIT (ValueError when
missing). -/
def fill_price_of (sig : Signal ℚ) (last : ℚ) : Except Exn ℚ :=
  match sig.order_type with
  | .MARKET => .ok last
  | .LIMIT =>
      match sig.price with
      | none => .error .valueError
      | some p => .ok p

/-- Result of TradingEngine._process_signal: the state after the call,
the events it appended, and the exception it let escape, if any. -/
structure StepResult where
  state : EngineState
  events : List EngineEvent
  exn : Option Exn
deriving DecidableEq

/-- TradingEngine._process_signal.  Each stage mirrors the source order:
fill price, equity query, inventory validation (rejection event on
InventoryLimitExceeded), position-size validation, open-trades increment,
order dispatch (no state effect in dry run), position update, PnL
registration, decrement, trade event.  An exception escaping a stage
skips the later stages but keeps the earlier mutations. -/
def process_signal (cfg : EngineCfg) (s : EngineState) (sig : Signal ℚ)
    (last : ℚ) : StepResult :=
  match fill_price_of sig last with
  | .error e => ⟨s, [], some e⟩
  | .ok fill_price =>
    let equity := cfg.equity
    let s1 := { s with last_equity := some equity }
    match InventoryRiskManager.validate_inventory cfg.invLimits s1.position.qty
        sig.side sig.size fill_price equity with
    | .error .inventoryLimitExceeded =>
        ⟨s1, [.signal_rejected .inventory_limit_exceeded sig.side sig.size
            fill_price sig.tag], none⟩
    | .error e => ⟨s1, [], some e⟩
    | .ok _ =>
      let position_notional := |sig.size * fill_price|
      match RiskManager.validate_position_size cfg.riskLimits s1.risk equity
          position_notional with
      | (.error e, rs) => ⟨{ s1 with risk := rs }, [], some e⟩
      | (.ok _, rs) =>
        match RiskManager.increment_open_trades cfg.riskLimits rs with
        | (.error e, rs') => ⟨{ s1 with risk := rs' }, [], some e⟩
        | (.ok _, rs') =>
          let realized_before := s1.position.realized_pnl
          match PositionManager.on_trade s1.position sig.side sig.size fill_price with
          | (.error e, ps) => ⟨{ s1 with risk := rs', position := ps }, [], some e⟩
          | (.ok _, ps) =>
            let trade_pnl := ps.realized_pnl - realized_before
            match RiskManager.register_trade_pnl cfg.riskLimits rs' trade_pnl with
            | (.error e, rs2) =>
                ⟨{ s1 with risk := rs2, position := ps }, [], some e⟩
            | (.ok _, rs2) =>
              let rs3 := RiskManager.decrement_open_trades rs2
              let s2 :=
                { s1 with
                  risk := rs3
                  position := ps
                  trade_count := s1.trade_count + 1 }
              ⟨s2,
               [.trade_executed sig.side sig.size fill_price sig.tag trade_pnl
                  ps.realized_pnl ps.qty ps.avg_price equity], none⟩

/-- Result of the per-tick signal loop: final state, accumulated events,
and whether a CircuitBreakerTripped was caught. -/
structure LoopResult where
  state : EngineState
  events : List EngineEvent
  cb_caught : Bool
deriving DecidableEq

/-- The signal loop of TradingEngine.process_tick: each signal is
processed in order; a caught CircuitBreakerTripped stops the engine,
appends the circuit_breaker event and leaves the loop; any other caught
exception appends an error event and continues with the next signal. -/
def process_signals (cfg : EngineCfg) (s : EngineState) (last : ℚ) :
    List (Signal ℚ) → LoopResult
  | [] => ⟨s, [], false⟩
  | sig :: rest =>
    let r := process_signal cfg s sig last
    match r.exn with
    | none =>
        let r' := process_signals cfg r.state last rest
        ⟨r'.state, r.events ++ r'.events, r'.cb_caught⟩
    | some .circuitBreakerTripped =>
        ⟨{ r.state with running := false }, r.events ++ [.circuit_breaker], true⟩
    | some _ =>
        let r' := process_signals cfg r.state last rest
        ⟨r'.state, r.events ++ [.error_event] ++ r'.events, r'.cb_caught⟩

/-- The number of signals the loop begins processing: all of them unless
a caught CircuitBreakerTripped breaks the loop early. -/
def handled_signals (cfg : EngineCfg) (s : EngineState) (last : ℚ) :
    List (Signal ℚ) → ℕ
  | [] => 0
  | sig :: rest =>
    let r := process_signal cfg s sig last
    match r.exn with
    | none => 1 + handled_signals cfg r.state last rest
    | some .circuitBreakerTripped => 1
    | some _ => 1 + handled_signals cfg r.state last rest

/-- Result of TradingEngine.process_tick: state, the events produced for
the tick, and whether CircuitBreakerTripped propagated to the caller
(raise_on_circuit_breaker). -/
structure TickResult where
  state : EngineState
  events : List EngineEvent
  raised : Bool
deriving DecidableEq

/-- TradingEngine.process_tick.  The strategy call is an oracle input:
either the list it returned or an uncaught strategy exception (caught by
the engine and surfaced as an error event). -/
def process_tick (cfg : EngineCfg) (s : EngineState) (last : Option ℚ)
    (strat : Except Unit (List (Signal ℚ))) : TickResult :=
  if s.running = false then ⟨s, [], false⟩
  else
    let s1 := { s with tick_count := s.tick_count + 1 }
    match last with
    | none => ⟨s1, [], false⟩
    | some lastPrice =>
      match strat with
      | .error _ => ⟨s1, [.error_event], false⟩
      | .ok signals =>
        let r := process_signals cfg s1 lastPrice signals
        ⟨r.state, r.events, r.cb_caught && cfg.raise_on_circuit_breaker⟩

/-- Driving the engine over a sequence of ticks (each with its strategy
oracle), collecting the per-tick event lists. -/
def run_engine (cfg : EngineCfg) (s : EngineState) :
    List (Option ℚ × Except Unit (List (Signal ℚ))) →
      EngineState × List (List EngineEvent)
  | [] => (s, [])
  | (last, strat) :: rest =>
    let r := process_tick cfg s last strat
    let rr := run_engine cfg r.state rest
    (rr.1, r.events :: rr.2)

/-- The BacktestConfig dataclass of core/backtest.py. -/
structure BacktestConfig where
  initial_equity : ℚ
  fee_rate : ℚ
  slippage_bps : ℚ

/-- The BacktestTrade record of core/backtest.py. -/
structure BacktestTrade where
  ts : ℚ
  side : Side
  size : ℚ
  price : ℚ
  fee : ℚ
  pnl : ℚ
  equity_after : ℚ
  signal_tag : Option String
deriving DecidableEq

/-- A tick consumed by the backtest loop: the optional last price and the
timestamp (tick.get of "last" and "ts"). -/
structure Tick where
  last : Option ℚ
  ts : ℚ

/-- The mutable state of a BacktestEngine run: position, the risk
manager's state, equity, and the accumulating trade and equity-curve
records. -/
structure BacktestState where
  position : PositionState
  risk : RiskState
  equity : ℚ
  trades : List BacktestTrade
  equity_curve : List (ℚ × ℚ)
deriving DecidableEq

/-- The state of a fresh BacktestEngine holding a fresh RiskManager. -/
def initBacktest (cfg : BacktestConfig) : BacktestState :=
  ⟨initPosition, initRisk, cfg.initial_equity, [], []⟩

/-- The summary dict built by BacktestEngine._build_summary. -/
structure BacktestSummary where
  initial_equity : ℚ
  final_equity : ℚ
  net_pnl : ℚ
  total_trades : ℕ
  wins : ℕ
  losses : ℕ
  win_rate_pct : ℚ
  max_drawdown : ℚ
deriving DecidableEq

/-- The BacktestResult dataclass of core/backtest.py. -/
structure BacktestResult where
  trades : List BacktestTrade
  equity_curve : List (ℚ × ℚ)
  summary : BacktestSummary
deriving DecidableEq

namespace BacktestEngine

/-- BacktestEngine._apply_slippage. -/
def apply_slippage (cfg : BacktestConfig) (price : ℚ) (side : Side) : ℚ :=
  if cfg.slippage_bps ≤ 0 then price
  else
    let factor := cfg.slippage_bps / 10000
    match side with
    | .BUY => price * (1 + factor)
    | .SELL => price * (1 - factor)

/-- BacktestEngine._record_equity. -/
def record_equity (s : BacktestState) (ts : ℚ) : BacktestState :=
  { s with equity_curve := s.equity_curve ++ [(ts, s.equity)] }

/-- BacktestEngine._execute_signal, given the tick's checked last price
and timestamp: fill price with slippage, inventory and risk validation,
fee, position update, equity update, PnL registration, trade and
equity-curve records.  The returned state keeps the mutations that
precede an escaping exception. -/
def execute_signal (rl : RiskLimits) (il : InventoryLimits)
    (cfg : BacktestConfig) (s : BacktestState) (sig : Signal ℚ)
    (last ts : ℚ) : Except Exn Unit × BacktestState :=
  match (match sig.order_type with
    | .MARKET => Except.ok last
    | .LIMIT =>
        match sig.price with
        | none => Except.error Exn.valueError
        | some p => Except.ok p) with
  | .error e => (.error e, s)
  | .ok fp0 =>
    let fill_price := apply_slippage cfg fp0 sig.side
    let equity_before := s.equity
    let position_notional := |sig.size * fill_price|
    match InventoryRiskManager.validate_inventory il s.position.qty sig.side
        sig.size fill_price equity_before with
    | .error e => (.error e, s)
    | .ok _ =>
      match RiskManager.validate_position_size rl s.risk equity_before
          position_notional with
      | (.error e, rs) => (.error e, { s with risk := rs })
      | (.ok _, rs) =>
        match RiskManager.increment_open_trades rl rs with
        | (.error e, rs') => (.error e, { s with risk := rs' })
        | (.ok _, rs') =>
          let fee := position_notional * cfg.fee_rate
          match PositionManager.on_trade s.position sig.side sig.size
              fill_price with
          | (.error e, ps) => (.error e, { s with risk := rs', position := ps })
          | (.ok _, ps) =>
            let trade_pnl := ps.realized_pnl - s.position.realized_pnl - fee
            let s1 :=
              { s with
                risk := rs'
                position := ps
                equity := s.equity + trade_pnl }
            match RiskManager.register_trade_pnl rl s1.risk trade_pnl with
            | (.error e, rs2) => (.error e, { s1 with risk := rs2 })
            | (.ok _, rs2) =>
              let rs3 := RiskManager.decrement_open_trades rs2
              let bt : BacktestTrade :=
                ⟨ts, sig.side, sig.size, fill_price, fee, trade_pnl,
                 s1.equity, sig.tag⟩
              let s2 := { s1 with risk := rs3, trades := s1.trades ++ [bt] }
              (.ok (), record_equity s2 ts)

/-- Outcome of the replay loop: continue, circuit-breaker stop (caught at
the outer loop), or an uncaught ValueError crashing run() entirely. -/
inductive RunOutcome where
  | next (s : BacktestState)
  | stopped (s : BacktestState)
  | failed

/-- The inner signal loop of BacktestEngine.run: InventoryLimitExceeded
skips the signal, CircuitBreakerTripped leaves the replay loop, any other
exception propagates. -/
def exec_signals (rl : RiskLimits) (il : InventoryLimits)
    (cfg : BacktestConfig) (last ts : ℚ) :
    List (Signal ℚ) → BacktestState → RunOutcome
  | [], s => .next s
  | sig :: rest, s =>
    match execute_signal rl il cfg s sig last ts with
    | (.ok _, s') => exec_signals rl il cfg last ts rest s'
    | (.error .inventoryLimitExceeded, s') => exec_signals rl il cfg last ts rest s'
    | (.error .circuitBreakerTripped, s') => .stopped s'
    | (.error .valueError, _) => .failed

/-- The tick loop of BacktestEngine.run, with the strategy given as an
explicit state machine (its on_tick is called exactly as in the source:
once per tick that has a last price). -/
def run_ticks {σ : Type} (rl : RiskLimits) (il : InventoryLimits)
    (cfg : BacktestConfig) (on_tick : σ → Tick → σ × List (Signal ℚ)) :
    List Tick → σ → BacktestState → RunOutcome
  | [], _, s => .next s
  | tick :: restt, st, s =>
    match tick.last with
    | none => run_ticks rl il cfg on_tick restt st s
    | some l =>
      let step := on_tick st tick
      match exec_signals rl il cfg l tick.ts step.2 s with
      | .next s' => run_ticks rl il cfg on_tick restt step.1 s'
      | .stopped s' => .stopped s'
      | .failed => .failed

/-- BacktestEngine._compute_max_drawdown, inner loop. -/
def max_drawdown_loop : List (ℚ × ℚ) → ℚ → ℚ → ℚ
  | [], _, max_dd => max_dd
  | point :: restc, max_equity, max_dd =>
    let eq' := point.2
    let max_equity' := if max_equity < eq' then eq' else max_equity
    let dd := max_equity' - eq'
    let max_dd' := if max_dd < dd then dd else max_dd
    max_drawdown_loop restc max_equity' max_dd'

/-- BacktestEngine._compute_max_drawdown. -/
def compute_max_drawdown : List (ℚ × ℚ) → ℚ
  | [] => 0
  | first :: restc => max_drawdown_loop (first :: restc) first.2 0

/-- BacktestEngine._build_summary. -/
def build_summary (cfg : BacktestConfig) (s : BacktestState) :
    BacktestSummary :=
  let total_trades := s.trades.length
  let wins := (s.trades.filter fun t => decide (0 < t.pnl)).length
  let losses := (s.trades.filter fun t => decide (t.pnl < 0)).length
  let win_rate := if 0 < total_trades then ((wins : ℚ) / total_trades) * 100 else 0
  { initial_equity := cfg.initial_equity
    final_equity := s.equity
    net_pnl := s.equity - cfg.initial_equity
    total_trades := total_trades
    wins := wins
    losses := losses
    win_rate_pct := win_rate
    max_drawdown := compute_max_drawdown s.equity_curve }

/-- BacktestEngine.run on a finite tick list: replay, final equity-curve
snapshot when the curve is empty, summary.  None models a run crashed by
an uncaught ValueError. -/
def run {σ : Type} (rl : RiskLimits) (il : InventoryLimits)
    (cfg : BacktestConfig) (on_tick : σ → Tick → σ × List (Signal ℚ))
    (ticks : List Tick) (st : σ) : Option BacktestResult :=
  match run_ticks rl il cfg on_tick ticks st (initBacktest cfg) with
  | .failed => none
  | .next s | .stopped s =>
    let s' := if s.equity_curve.isEmpty then record_equity s 0 else s
    some ⟨s'.trades, s'.equity_curve, build_summary cfg s'⟩

end BacktestEngine

/-- A deterministic scripted strategy: its state is a tick counter and it
emits the n-th entry of a fixed script on the n-th tick it sees (a legal
strategy under the contract of core/strategy.py). -/
def scripted_on_tick (script : List (List (Signal ℚ))) :
    ℕ → Tick → ℕ × List (Signal ℚ) :=
  fun n _ => (n + 1, script.getD n [])

/-- The SideBias literal of strategies/mean_reversion_v1.py. -/
inductive SideBias where
  | both
  | long_only
  | short_only
deriving DecidableEq

/-- The MeanReversionV1Config dataclass, embedded over the reals because
the z-score takes a square root. -/
structure MeanReversionV1Config where
  lookback_ticks : ℕ
  z_threshold : ℝ
  order_size : ℝ
  cooldown_ticks : ℕ
  side_bias : SideBias
  max_z_cap : ℝ

/-- The rolling state of a MeanReversionV1 strategy: the price deque and
the cooldown counter. -/
structure MeanReversionV1State where
  prices : List ℝ
  cooldown_counter : ℕ

/-- deque(maxlen = n).append: append on the right, dropping from the
left down to length n. -/
def push_price (n : ℕ) (prices : List ℝ) (p : ℝ) : List ℝ :=
  let l := prices ++ [p]
  if n < l.length then l.drop (l.length - n) else l

namespace MeanReversionV1

/-- MeanReversionV1._bias_allows. -/
def bias_allows (cfg : MeanReversionV1Config) (side : Side) : Bool :=
  match cfg.side_bias, side with
  | .both, _ => true
  | .long_only, .BUY => true
  | .short_only, .SELL => true
  | _, _ => false

/-- MeanReversionV1._compute_z_score (with _enough_data inlined as the
source's early return).  var is a mean of squares, hence nonnegative, so
the source's var ** 0.5 is Real.sqrt var. -/
noncomputable def compute_z_score (cfg : MeanReversionV1Config)
    (prices : List ℝ) (last : ℝ) : Option ℝ :=
  if prices.length < cfg.lookback_ticks then none
  else
    let n := prices.length
    let mean := prices.sum / (n : ℝ)
    let var := ((prices.map fun p => (p - mean) ^ 2).sum) / ((max 1 (n - 1) : ℕ) : ℝ)
    let std := Real.sqrt var
    if std ≤ 0 then none
    else
      let z := (last - mean) / std
      let z1 :=
        if cfg.max_z_cap < z then cfg.max_z_cap
        else if z < -cfg.max_z_cap then -cfg.max_z_cap
        else z
      some z1

/-- MeanReversionV1.on_tick. -/
noncomputable def on_tick (cfg : MeanReversionV1Config)
    (s : MeanReversionV1State) (last? : Option ℝ) :
    MeanReversionV1State × List (Signal ℝ) :=
  match last? with
  | none => (s, [])
  | some last =>
    let s1 := { s with prices := push_price cfg.lookback_ticks s.prices last }
    if 0 < s1.cooldown_counter then
      ({ s1 with cooldown_counter := s1.cooldown_counter - 1 }, [])
    else
      match compute_z_score cfg s1.prices last with
      | none => (s1, [])
      | some z =>
        if |z| < cfg.z_threshold then (s1, [])
        else if z ≤ -cfg.z_threshold then
          if bias_allows cfg .BUY then
            ({ s1 with cooldown_counter := cfg.cooldown_ticks },
             [⟨.BUY, cfg.order_size, .MARKET, none, some ("MEAN_REV_V1")⟩])
          else (s1, [])
        else if cfg.z_threshold ≤ z then
          if bias_allows cfg .SELL then
            ({ s1 with cooldown_counter := cfg.cooldown_ticks },
             [⟨.SELL, cfg.order_size, .MARKET, none, some ("MEAN_REV_V1")⟩])
          else (s1, [])
        else (s1, [])

end MeanReversionV1

/-- Feeding a list of ticks to a MeanReversionV1 strategy, collecting the
signal list emitted on each tick. -/
noncomputable def run_mrv1 (cfg : MeanReversionV1Config) :
    List (Option ℝ) → MeanReversionV1State → List (List (Signal ℝ))
  | [], _ => []
  | t :: ts, s =>
    let r := MeanReversionV1.on_tick cfg s t
    r.2 :: run_mrv1 cfg ts r.1

/-- Claim C1: starting flat, BUY 1 @ 100 then SELL 2 @ 90 leaves the
position with qty = -1, avg_price = 90, realized_pnl = -10, and the
further BUY 1 @ 80 leaves it with qty = 0, avg_price = 0,
realized_pnl = 0 (close-or-reverse flips and then closes exactly). -/
theorem C1_flip_and_close :
    apply_trades initPosition [⟨.BUY, 1, 100⟩, ⟨.SELL, 2, 90⟩]
        = ⟨-1, 90, -10⟩ ∧
    apply_trades initPosition [⟨.BUY, 1, 100⟩, ⟨.SELL, 2, 90⟩, ⟨.BUY, 1, 80⟩]
        = ⟨0, 0, 0⟩ := by
  refine ⟨?_, ?_⟩ <;>
    norm_num [apply_trades, PositionManager.on_trade, PositionManager.open_new_position,
      PositionManager.add_to_position, PositionManager.close_or_reverse, initPosition,
      Side.dir, min_def, PositionState.mk.injEq]

/-- Any single RiskManager call keeps the circuit-breaker latch set. -/
theorem RiskOp.apply_hit_mono (L : RiskLimits) (s : RiskState) (op : RiskOp)
    (h : s.circuit_breaker_hit = true) :
    (op.apply L s).circuit_breaker_hit = true := by
  cases op <;>
    simp [RiskOp.apply, RiskManager.register_trade_pnl,
      RiskManager.increment_open_trades, RiskManager.decrement_open_trades,
      RiskManager.validate_position_size, h]

/-- Any sequence of RiskManager calls keeps the latch set. -/
theorem run_risk_ops_hit_mono (L : RiskLimits) (ops : List RiskOp) :
    ∀ s : RiskState, s.circuit_breaker_hit = true →
      (run_risk_ops L s ops).circuit_breaker_hit = true := by
  induction ops with
  | nil => intro s h; simpa [run_risk_ops] using h
  | cons op ops ih =>
      intro s h
      simpa [run_risk_ops] using ih _ (RiskOp.apply_hit_mono L s op h)

/-- Claim C2 counterexample: with the limits of tests/test_risk.py
(max_position_size_pct = 10) and a fresh ARMED RiskManager,
validate_position_size(equity = 1000, notional = 200) fires the
position-size trigger — it raises CircuitBreakerTripped — yet
circuit_breaker_hit stays false afterwards, so the ARMED → TRIPPED
transition claimed for this trigger does not happen. -/
theorem C2_size_trigger_does_not_latch :
    (RiskManager.validate_position_size ⟨2, 50, 10, 3, true⟩ initRisk 1000 200).1
        = .error .circuitBreakerTripped ∧
    ((RiskManager.validate_position_size ⟨2, 50, 10, 3, true⟩ initRisk 1000 200).2
        ).circuit_breaker_hit = false := by
  norm_num [RiskManager.validate_position_size, initRisk]

/-- Claim C2, amended: circuit_breaker_hit is monotone — once true it
never becomes false under any sequence of RiskManager calls — and the
daily-loss trigger of register_trade_pnl sets it; but the position-size
and open-trades triggers only raise CircuitBreakerTripped, leaving
circuit_breaker_hit unchanged (false). -/
theorem C2_trip_latch_amended (L : RiskLimits) (s : RiskState) (ops : List RiskOp)
    (pnl account_equity position_notional : ℚ) :
    (s.circuit_breaker_hit = true →
      (run_risk_ops L s ops).circuit_breaker_hit = true) ∧
    (s.circuit_breaker_hit = false → L.circuit_breaker_enabled = true →
      s.daily_pnl + pnl < 0 → L.max_daily_loss_value ≤ |s.daily_pnl + pnl| →
      (RiskManager.register_trade_pnl L s pnl).1 = .error .circuitBreakerTripped ∧
      ((RiskManager.register_trade_pnl L s pnl).2).circuit_breaker_hit = true) ∧
    (s.circuit_breaker_hit = false → 0 < account_equity →
      L.max_position_size_pct < position_notional / account_equity * 100 →
      (RiskManager.validate_position_size L s account_equity position_notional).1
          = .error .circuitBreakerTripped ∧
      (RiskManager.validate_position_size L s account_equity position_notional).2
          = s) ∧
    (s.circuit_breaker_hit = false → s.open_trades = L.max_open_trades →
      (RiskManager.increment_open_trades L s).1 = .error .circuitBreakerTripped ∧
      ((RiskManager.increment_open_trades L s).2).circuit_breaker_hit = false) := by
  refine ⟨run_risk_ops_hit_mono L ops s, ?_, ?_, ?_⟩
  · intro hhit hen hneg hloss
    simp [RiskManager.register_trade_pnl, RiskManager.check_daily_loss,
      RiskManager.trigger_circuit_breaker, hhit, hen, not_le.mpr hneg, hloss]
  · intro hhit hpos hpct
    simp [RiskManager.validate_position_size, hhit, not_le.mpr hpos, hpct]
  · intro hhit hmax
    simp [RiskManager.increment_open_trades, hhit, hmax]

/-- Witness for C2_trip_latch_amended: all four conjuncts discharged at
concrete inputs (the limits of tests/test_risk.py). -/
theorem C2_trip_latch_amended_witness :
    (run_risk_ops ⟨2, 50, 10, 3, true⟩ ⟨0, 0, true⟩
        [.register 5, .increment, .decrement, .validate 1000 1]
      ).circuit_breaker_hit = true ∧
    (RiskManager.register_trade_pnl ⟨2, 50, 10, 3, true⟩ initRisk (-60)).1
        = .error .circuitBreakerTripped := by
  constructor
  · exact (C2_trip_latch_amended ⟨2, 50, 10, 3, true⟩ ⟨0, 0, true⟩
      [.register 5, .increment, .decrement, .validate 1000 1] 0 1 1).1 rfl
  · exact ((C2_trip_latch_amended ⟨2, 50, 10, 3, true⟩ initRisk [] (-60) 1000
      200).2.1 rfl rfl (by norm_num [initRisk]) (by norm_num [initRisk])).1

/-- Claim C5: under positive trade_qty and equity (and an intrinsically
valid side), validate_inventory rejects with InventoryLimitExceeded
exactly when the hypothetical post-trade quantity breaks the absolute or
the notional limit, and returns silently otherwise.  Statelessness is by
construction: the embedding is a function of the immutable limits and the
arguments only, mirroring a method that reads nothing else. -/
theorem C5_validate_inventory_iff (L : InventoryLimits) (current_qty : ℚ)
    (trade_side : Side) (trade_qty price account_equity : ℚ)
    (hq : 0 < trade_qty) (he : 0 < account_equity) :
    (InventoryRiskManager.validate_inventory L current_qty trade_side trade_qty
        price account_equity = .error .inventoryLimitExceeded ↔
      (L.max_abs_qty < |current_qty + trade_side.dir * trade_qty| ∨
       L.max_notional_pct <
         |current_qty + trade_side.dir * trade_qty| * price / account_equity * 100)) ∧
    (InventoryRiskManager.validate_inventory L current_qty trade_side trade_qty
        price account_equity = .ok () ↔
      ¬ (L.max_abs_qty < |current_qty + trade_side.dir * trade_qty| ∨
         L.max_notional_pct <
           |current_qty + trade_side.dir * trade_qty| * price / account_equity * 100)) := by
  simp only [InventoryRiskManager.validate_inventory]
  rw [if_neg (not_le.mpr hq), if_neg (not_le.mpr he)]
  split_ifs with h1 h2 <;> simp_all

/-- Witness for C5_validate_inventory_iff: the inventory example of the
spec (current 0.015, BUY 0.01, max_abs_qty 0.02) is rejected. -/
theorem C5_validate_inventory_iff_witness :
    InventoryRiskManager.validate_inventory ⟨0.02, 1000⟩ 0.015 .BUY 0.01 100 1000
      = .error .inventoryLimitExceeded := by
  exact (C5_validate_inventory_iff ⟨0.02, 1000⟩ 0.015 .BUY 0.01 100 1000
      (by norm_num) (by norm_num)).1.mpr (Or.inl (by norm_num [Side.dir, abs_of_pos]))

/-- Feeding one valid trade to a PositionManager changes qty by exactly
the trade's signed quantity. -/
theorem on_trade_qty_additive (s : PositionState) (side : Side) (q p : ℚ)
    (hq : 0 < q) :
    ((PositionManager.on_trade s side q p).2).qty = s.qty + side.dir * q := by
  have hq' : ¬ q ≤ 0 := not_le.mpr hq
  by_cases hz : s.qty = 0
  · cases side <;>
      simp [PositionManager.on_trade, PositionManager.open_new_position, hz, hq',
        Side.dir]
  · rcases Ne.lt_or_lt hz with hneg | hpos
    · have hnl : ¬ (0 : ℚ) < s.qty := not_lt.mpr hneg.le
      cases side
      · norm_num [PositionManager.on_trade, PositionManager.close_or_reverse, hq', hz,
          hnl, Side.dir, abs_of_neg hneg]
        split_ifs <;> ring_nf <;> linarith
      · norm_num [PositionManager.on_trade, PositionManager.add_to_position, hq', hz,
          hnl, Side.dir, abs_of_neg hneg]
        try ring
    · cases side
      · norm_num [PositionManager.on_trade, PositionManager.add_to_position, hq', hz,
          hpos, Side.dir, abs_of_pos hpos]
        try ring
      · norm_num [PositionManager.on_trade, PositionManager.close_or_reverse, hq', hz,
          hpos, Side.dir, abs_of_pos hpos]
        split_ifs <;> ring_nf <;> linarith

/-- Feeding one valid trade to a PositionManager preserves the invariant
that a flat position has zero average price. -/
theorem on_trade_flat_avg (s : PositionState) (side : Side) (q p : ℚ)
    (hq : 0 < q) (hs : s.qty = 0 → s.avg_price = 0) :
    ((PositionManager.on_trade s side q p).2).qty = 0 →
      ((PositionManager.on_trade s side q p).2).avg_price = 0 := by
  have hq' : ¬ q ≤ 0 := not_le.mpr hq
  intro h
  rw [on_trade_qty_additive s side q p hq] at h
  by_cases hz : s.qty = 0
  · exfalso
    cases side <;> simp [Side.dir, hz] at h <;> linarith
  · cases side
    · have hsq : s.qty = -q := by simp [Side.dir] at h; linarith
      norm_num [PositionManager.on_trade, PositionManager.close_or_reverse, Side.dir,
        hsq, hq', hq.ne', hq.not_lt, abs_neg, abs_of_pos hq]
    · have hsq : s.qty = q := by simp [Side.dir] at h; linarith
      norm_num [PositionManager.on_trade, PositionManager.close_or_reverse, Side.dir,
        hsq, hq', hq.ne', hq, abs_of_pos hq]

/-- Over a list of valid trades, qty accumulates the signed sum and the
flat-average invariant is preserved. -/
theorem apply_trades_signed (ts : List Trade) :
    ∀ s : PositionState, (∀ t ∈ ts, 0 < t.qty) →
      (apply_trades s ts).qty = s.qty + signed_sum ts ∧
      ((s.qty = 0 → s.avg_price = 0) →
        ((apply_trades s ts).qty = 0 → (apply_trades s ts).avg_price = 0)) := by
  induction ts with
  | nil => intro s _; simp [apply_trades, signed_sum]
  | cons t ts ih =>
      intro s hpos
      have ht : 0 < t.qty := hpos t (List.mem_cons_self t ts)
      have hrest : ∀ t' ∈ ts, 0 < t'.qty := fun t' h => hpos t' (List.mem_cons_of_mem t h)
      have h1 := ih ((PositionManager.on_trade s t.side t.qty t.price).2) hrest
      constructor
      · rw [apply_trades, h1.1, on_trade_qty_additive s t.side t.qty t.price ht,
          signed_sum]
        ring
      · intro hs
        rw [apply_trades]
        exact h1.2 (on_trade_flat_avg s t.side t.qty t.price ht hs)

/-- Characterization of the binade: Int.log 2 x = e when
2 ^ e ≤ x < 2 ^ (e + 1). -/
theorem int_log2_eq (x : ℚ) (e : ℤ) (hx : 0 < x)
    (hlow : (2 : ℚ) ^ e ≤ x) (hhigh : x < (2 : ℚ) ^ (e + 1)) :
    Int.log 2 x = e := by
  have h1 : e ≤ Int.log 2 x := by
    rw [← Int.zpow_le_iff_le_log (by norm_num) hx]
    exact_mod_cast hlow
  have h2 : Int.log 2 x < e + 1 := by
    rw [← Int.lt_zpow_iff_log_lt (by norm_num) hx]
    exact_mod_cast hhigh
  omega

/-- rnd64 at a positive value with known binade rounds on the grid with
unit 2 ^ (e - 52). -/
theorem rnd64_eval (x : ℚ) (e : ℤ) (hx : 0 < x)
    (hlow : (2 : ℚ) ^ e ≤ x) (hhigh : x < (2 : ℚ) ^ (e + 1)) :
    rnd64 x = round_to_grid (e - 52) x := by
  rw [rnd64, if_neg hx.ne', abs_of_pos hx, int_log2_eq x e hx hlow hhigh]

/-- A value already on the grid rounds to itself. -/
theorem round_to_grid_exact (k : ℤ) (x : ℚ) (n : ℤ)
    (h : x = (n : ℚ) * (2 : ℚ) ^ k) : round_to_grid k x = x := by
  have h2 : ((2 : ℚ) ^ k) ≠ 0 := zpow_ne_zero _ (by norm_num)
  have hm : x / (2 : ℚ) ^ k = (n : ℚ) := by
    rw [h, mul_div_assoc, div_self h2, mul_one]
  simp only [round_to_grid, hm, Int.floor_intCast, sub_self]
  norm_num [h]

/-- A value exactly halfway between grid points rounds to the even
neighbour (here stated for an odd lower neighbour n, so the result is
n + 1). -/
theorem round_to_grid_tie (k : ℤ) (x : ℚ) (n : ℤ) (hodd : ¬ Even n)
    (h : x = ((n : ℚ) + 1 / 2) * (2 : ℚ) ^ k) :
    round_to_grid k x = ((n : ℚ) + 1) * (2 : ℚ) ^ k := by
  have h2 : ((2 : ℚ) ^ k) ≠ 0 := zpow_ne_zero _ (by norm_num)
  have hm : x / (2 : ℚ) ^ k = (n : ℚ) + 1 / 2 := by
    rw [h, mul_div_assoc, div_self h2, mul_one]
  have hfl : ⌊x / (2 : ℚ) ^ k⌋ = n := by
    rw [hm, Int.floor_eq_iff]
    constructor <;> norm_num
  simp only [round_to_grid, hm, hfl]
  norm_num [hodd]

/-- Binary64 trace, step 1: BUY 0.1 from flat.  0.1 denotes the double
3602879701896397 / 2 ^ 55, and 1.0 times it is exact. -/
theorem float_trace_step1 (s : PositionState) (h : s.qty = 0) :
    ((FloatPositionManager.on_trade s .BUY (3602879701896397 / 2 ^ 55)
        100).2).qty = 3602879701896397 / 2 ^ 55 := by
  have hq : ¬ (3602879701896397 / 2 ^ 55 : ℚ) ≤ 0 := by norm_num
  have e1 : fmul 1 (3602879701896397 / 2 ^ 55) = 3602879701896397 / 2 ^ 55 := by
    rw [fmul, one_mul,
      rnd64_eval _ (-4) (by norm_num) (by norm_num) (by norm_num),
      show ((-4 : ℤ) - 52) = (-56 : ℤ) by norm_num]
    exact round_to_grid_exact _ _ 7205759403792794 (by norm_num)
  simp only [FloatPositionManager.on_trade,
    FloatPositionManager.open_new_position, if_neg hq, if_pos h, Side.dir, e1]

/-- Binary64 trace, step 2: BUY 0.2 onto a long 0.1.  The sum
0.1 + 0.2 is a tie between doubles and rounds up to the even neighbour
5404319552844596 / 2 ^ 54 (the famous 0.30000000000000004). -/
theorem float_trace_step2 (s : PositionState)
    (h : s.qty = 3602879701896397 / 2 ^ 55) :
    ((FloatPositionManager.on_trade s .BUY (3602879701896397 / 2 ^ 54)
        100).2).qty = 5404319552844596 / 2 ^ 54 := by
  have hq : ¬ (3602879701896397 / 2 ^ 54 : ℚ) ≤ 0 := by norm_num
  have hz : ¬ (s.qty = 0) := by rw [h]; norm_num
  have hpos : (0 : ℚ) < s.qty := by rw [h]; norm_num
  have habs : |s.qty| = 3602879701896397 / 2 ^ 55 := by
    rw [h]; exact abs_of_pos (by norm_num)
  have hadd : fadd (3602879701896397 / 2 ^ 55) (3602879701896397 / 2 ^ 54)
      = 5404319552844596 / 2 ^ 54 := by
    rw [fadd, show (3602879701896397 / 2 ^ 55 + 3602879701896397 / 2 ^ 54 : ℚ)
        = 10808639105689191 / 2 ^ 55 by norm_num,
      rnd64_eval _ (-2) (by norm_num) (by norm_num) (by norm_num),
      show ((-2 : ℤ) - 52) = (-54 : ℤ) by norm_num,
      round_to_grid_tie (-54) _ 5404319552844595
        (by rw [Int.even_iff]; norm_num) (by norm_num)]
    norm_num
  have hmul : fmul 1 (5404319552844596 / 2 ^ 54) = 5404319552844596 / 2 ^ 54 := by
    rw [fmul, one_mul,
      rnd64_eval _ (-2) (by norm_num) (by norm_num) (by norm_num),
      show ((-2 : ℤ) - 52) = (-54 : ℤ) by norm_num]
    exact round_to_grid_exact _ _ 5404319552844596 (by norm_num)
  simp only [FloatPositionManager.on_trade,
    FloatPositionManager.add_to_position, if_neg hq, if_neg hz, if_pos hpos,
    Side.dir, habs, hadd, hmul, eq_self_iff_true, if_true]

/-- Binary64 trace, step 3: SELL 0.1 off the long 0.30000000000000004.
The difference is exactly representable: 7205759403792795 / 2 ^ 55, which
is 0.2 plus one unit in the last place. -/
theorem float_trace_step3 (s : PositionState)
    (h : s.qty = 5404319552844596 / 2 ^ 54) :
    ((FloatPositionManager.on_trade s .SELL (3602879701896397 / 2 ^ 55)
        100).2).qty = 7205759403792795 / 2 ^ 55 := by
  have hq : ¬ (3602879701896397 / 2 ^ 55 : ℚ) ≤ 0 := by norm_num
  have hz : ¬ (s.qty = 0) := by rw [h]; norm_num
  have hpos : (0 : ℚ) < s.qty := by rw [h]; norm_num
  have hdir : ¬ ((1 : ℚ) = -1) := by norm_num
  have habs : |s.qty| = 5404319552844596 / 2 ^ 54 := by
    rw [h]; exact abs_of_pos (by norm_num)
  have hne : ¬ (3602879701896397 / 2 ^ 55 : ℚ) = 5404319552844596 / 2 ^ 54 := by
    norm_num
  have hlt : (3602879701896397 / 2 ^ 55 : ℚ) < 5404319552844596 / 2 ^ 54 := by
    norm_num
  have hsub : fsub (5404319552844596 / 2 ^ 54) (3602879701896397 / 2 ^ 55)
      = 7205759403792795 / 2 ^ 55 := by
    rw [fsub, show (5404319552844596 / 2 ^ 54 - 3602879701896397 / 2 ^ 55 : ℚ)
        = 7205759403792795 / 2 ^ 55 by norm_num,
      rnd64_eval _ (-3) (by norm_num) (by norm_num) (by norm_num),
      show ((-3 : ℤ) - 52) = (-55 : ℤ) by norm_num]
    exact round_to_grid_exact _ _ 7205759403792795 (by norm_num)
  have hmul : fmul 1 (7205759403792795 / 2 ^ 55) = 7205759403792795 / 2 ^ 55 := by
    rw [fmul, one_mul,
      rnd64_eval _ (-3) (by norm_num) (by norm_num) (by norm_num),
      show ((-3 : ℤ) - 52) = (-55 : ℤ) by norm_num]
    exact round_to_grid_exact _ _ 7205759403792795 (by norm_num)
  simp only [FloatPositionManager.on_trade,
    FloatPositionManager.close_or_reverse, if_neg hq, if_neg hz, if_pos hpos,
    Side.dir, if_neg hdir, habs, if_neg hne, if_pos hlt, hsub, hmul]

/-- Binary64 trace, step 4: SELL 0.2 off the long 0.20000000000000004.
0.2 is one unit in the last place short of the position, so the
equal-close branch is not taken: a partial close leaves qty = 2⁻⁵⁵. -/
theorem float_trace_step4 (s : PositionState)
    (h : s.qty = 7205759403792795 / 2 ^ 55) :
    ((FloatPositionManager.on_trade s .SELL (3602879701896397 / 2 ^ 54)
        100).2).qty = 1 / 2 ^ 55 := by
  have hq : ¬ (3602879701896397 / 2 ^ 54 : ℚ) ≤ 0 := by norm_num
  have hz : ¬ (s.qty = 0) := by rw [h]; norm_num
  have hpos : (0 : ℚ) < s.qty := by rw [h]; norm_num
  have hdir : ¬ ((1 : ℚ) = -1) := by norm_num
  have habs : |s.qty| = 7205759403792795 / 2 ^ 55 := by
    rw [h]; exact abs_of_pos (by norm_num)
  have hne : ¬ (3602879701896397 / 2 ^ 54 : ℚ) = 7205759403792795 / 2 ^ 55 := by
    norm_num
  have hlt : (3602879701896397 / 2 ^ 54 : ℚ) < 7205759403792795 / 2 ^ 55 := by
    norm_num
  have hsub : fsub (7205759403792795 / 2 ^ 55) (3602879701896397 / 2 ^ 54)
      = 1 / 2 ^ 55 := by
    rw [fsub, show (7205759403792795 / 2 ^ 55 - 3602879701896397 / 2 ^ 54 : ℚ)
        = 1 / 2 ^ 55 by norm_num,
      rnd64_eval _ (-55) (by norm_num) (by norm_num) (by norm_num),
      show ((-55 : ℤ) - 52) = (-107 : ℤ) by norm_num]
    exact round_to_grid_exact _ _ 4503599627370496 (by norm_num)
  have hmul : fmul 1 (1 / 2 ^ 55) = 1 / 2 ^ 55 := by
    rw [fmul, one_mul,
      rnd64_eval _ (-55) (by norm_num) (by norm_num) (by norm_num),
      show ((-55 : ℤ) - 52) = (-107 : ℤ) by norm_num]
    exact round_to_grid_exact _ _ 4503599627370496 (by norm_num)
  simp only [FloatPositionManager.on_trade,
    FloatPositionManager.close_or_reverse, if_neg hq, if_neg hz, if_pos hpos,
    Side.dir, if_neg hdir, habs, if_neg hne, if_pos hlt, hsub, hmul]

/-- Claim C4 counterexample: the source computes in IEEE binary64, and
rounding breaks the flat invariant.  The doubles denoted by the literals
0.1 and 0.2 are 3602879701896397/2^55 and 3602879701896397/2^54; the four
valid trades BUY 0.1, BUY 0.2, SELL 0.1, SELL 0.2 have exact signed sum
zero, yet the float PositionManager ends with qty = 2⁻⁵⁵ ≠ 0 (the
0.1 + 0.2 tie rounds up, the two partial-close subtractions are exact and
keep the residue, and avg_price is never reset), refuting
qty = 0 ∧ avg_price = 0. -/
theorem C4_flat_invariant_float_counterexample :
    (0 : ℚ) < 3602879701896397 / 2 ^ 55 ∧
    (0 : ℚ) < 3602879701896397 / 2 ^ 54 ∧
    signed_sum
        [⟨.BUY, 3602879701896397 / 2 ^ 55, 100⟩,
         ⟨.BUY, 3602879701896397 / 2 ^ 54, 100⟩,
         ⟨.SELL, 3602879701896397 / 2 ^ 55, 100⟩,
         ⟨.SELL, 3602879701896397 / 2 ^ 54, 100⟩] = 0 ∧
    (apply_trades_float initPosition
        [⟨.BUY, 3602879701896397 / 2 ^ 55, 100⟩,
         ⟨.BUY, 3602879701896397 / 2 ^ 54, 100⟩,
         ⟨.SELL, 3602879701896397 / 2 ^ 55, 100⟩,
         ⟨.SELL, 3602879701896397 / 2 ^ 54, 100⟩]).qty = 1 / 2 ^ 55 ∧
    (1 : ℚ) / 2 ^ 55 ≠ 0 := by
  refine ⟨by norm_num, by norm_num, by norm_num [signed_sum, Side.dir], ?_,
    by norm_num⟩
  rw [apply_trades_float, apply_trades_float, apply_trades_float,
    apply_trades_float, apply_trades_float]
  exact float_trace_step4 _ (float_trace_step3 _ (float_trace_step2 _
    (float_trace_step1 _ rfl)))

/-- Claim C4, amended: in exact arithmetic the flat invariant holds — any
finite sequence of valid trades whose signed sum is zero leaves a fresh
PositionManager with qty = 0 and avg_price = 0.  Under the source's IEEE
binary64 arithmetic the invariant can fail by rounding residue (see the
counterexample, which ends with qty = 2⁻⁵⁵). -/
theorem C4_flat_invariant (ts : List Trade) (hpos : ∀ t ∈ ts, 0 < t.qty)
    (hsum : signed_sum ts = 0) :
    (apply_trades initPosition ts).qty = 0 ∧
    (apply_trades initPosition ts).avg_price = 0 := by
  have h := apply_trades_signed ts initPosition hpos
  have hq : (apply_trades initPosition ts).qty = 0 := by
    rw [h.1, hsum]; norm_num [initPosition]
  exact ⟨hq, h.2 (fun _ => rfl) hq⟩

/-- Witness for C4_flat_invariant: the round trip BUY 1 @ 100 then
SELL 1 @ 110 ends flat with zero average price. -/
theorem C4_flat_invariant_witness :
    (apply_trades initPosition [⟨.BUY, 1, 100⟩, ⟨.SELL, 1, 110⟩]).qty = 0 ∧
    (apply_trades initPosition [⟨.BUY, 1, 100⟩, ⟨.SELL, 1, 110⟩]).avg_price = 0 := by
  refine C4_flat_invariant _ ?_ ?_
  · intro t ht
    simp only [List.mem_cons, List.not_mem_nil, or_false] at ht
    rcases ht with rfl | rfl <;> norm_num
  · norm_num [signed_sum, Side.dir]

/-- Shape of a _process_signal result: on a normal return the events are
exactly one rejection (position and risk untouched) or exactly one trade
event carrying the signal's payload; when an exception escapes, no event
was appended by the signal step itself. -/
theorem process_signal_shape (cfg : EngineCfg) (s : EngineState)
    (sig : Signal ℚ) (last : ℚ) :
    ((process_signal cfg s sig last).exn = none →
      ((process_signal cfg s sig last).state.position = s.position ∧
       (process_signal cfg s sig last).state.risk = s.risk ∧
       ∃ fp, (process_signal cfg s sig last).events
          = [.signal_rejected .inventory_limit_exceeded sig.side sig.size fp
              sig.tag]) ∨
      (∃ fp pnl rt qq ap, (process_signal cfg s sig last).events
          = [.trade_executed sig.side sig.size fp sig.tag pnl rt qq ap
              cfg.equity])) ∧
    ((process_signal cfg s sig last).exn ≠ none →
      (process_signal cfg s sig last).events = []) := by
  unfold process_signal
  repeat' split <;> try simp_all

/-- On a normal return _process_signal appended exactly one event. -/
theorem process_signal_events_length (cfg : EngineCfg) (s : EngineState)
    (sig : Signal ℚ) (last : ℚ)
    (h : (process_signal cfg s sig last).exn = none) :
    (process_signal cfg s sig last).events.length = 1 := by
  rcases (process_signal_shape cfg s sig last).1 h with ⟨_, _, _, hev⟩ | ⟨_, _, _, _, _, hev⟩ <;>
    simp [hev]

/-- The circuit_breaker event is never appended by _process_signal. -/
theorem process_signal_no_cb (cfg : EngineCfg) (s : EngineState)
    (sig : Signal ℚ) (last : ℚ) :
    EngineEvent.circuit_breaker ∉ (process_signal cfg s sig last).events := by
  by_cases h : (process_signal cfg s sig last).exn = none
  · rcases (process_signal_shape cfg s sig last).1 h with ⟨_, _, _, hev⟩ | ⟨_, _, _, _, _, hev⟩ <;>
      simp [hev]
  · simp [(process_signal_shape cfg s sig last).2 h]

/-- The signal loop catches CircuitBreakerTripped exactly when a
circuit_breaker event appears; in that case the event is last and the
engine has stopped. -/
theorem process_signals_cb (cfg : EngineCfg) (last : ℚ)
    (sigs : List (Signal ℚ)) :
    ∀ s : EngineState,
      ((process_signals cfg s last sigs).cb_caught = false →
        EngineEvent.circuit_breaker ∉ (process_signals cfg s last sigs).events) ∧
      ((process_signals cfg s last sigs).cb_caught = true →
        (process_signals cfg s last sigs).events.getLast?
            = some .circuit_breaker ∧
        (process_signals cfg s last sigs).state.running = false) := by
  induction sigs with
  | nil => intro s; simp [process_signals]
  | cons sig rest ih =>
      intro s
      rcases hexn : (process_signal cfg s sig last).exn with _ | e
      · constructor
        · intro hcb hmem
          rw [process_signals] at hcb hmem
          simp only [hexn, List.mem_append] at hcb hmem
          rcases hmem with hmem | hmem
          · exact process_signal_no_cb cfg s sig last hmem
          · exact (ih (process_signal cfg s sig last).state).1 hcb hmem
        · intro hcb
          rw [process_signals] at hcb ⊢
          simp only [hexn] at hcb ⊢
          have hih := (ih (process_signal cfg s sig last).state).2 hcb
          refine ⟨?_, hih.2⟩
          rw [List.getLast?_append_of_ne_nil]
          · exact hih.1
          · intro hnil
            rw [hnil] at hih
            simp at hih
      · cases e
        case valueError =>
          constructor
          · intro hcb hmem
            rw [process_signals] at hcb hmem
            simp only [hexn, List.mem_append] at hcb hmem
            rcases hmem with hmem | hmem
            · rcases hmem with hmem | hmem
              · exact process_signal_no_cb cfg s sig last hmem
              · simp at hmem
            · exact (ih (process_signal cfg s sig last).state).1 hcb hmem
          · intro hcb
            rw [process_signals] at hcb ⊢
            simp only [hexn] at hcb ⊢
            have hih := (ih (process_signal cfg s sig last).state).2 hcb
            refine ⟨?_, hih.2⟩
            rw [List.append_assoc, List.getLast?_append_of_ne_nil]
            · rw [List.getLast?_append_of_ne_nil]
              · exact hih.1
              · intro hnil
                rw [hnil] at hih
                simp at hih
            · intro hnil
              simp at hnil
        case circuitBreakerTripped =>
          constructor
          · intro hcb
            rw [process_signals] at hcb
            simp [hexn] at hcb
          · intro _
            rw [process_signals]
            simp only [hexn]
            refine ⟨?_, trivial⟩
            rw [List.getLast?_append_of_ne_nil]
            · rfl
            · simp
        case inventoryLimitExceeded =>
          constructor
          · intro hcb hmem
            rw [process_signals] at hcb hmem
            simp only [hexn, List.mem_append] at hcb hmem
            rcases hmem with hmem | hmem
            · rcases hmem with hmem | hmem
              · exact process_signal_no_cb cfg s sig last hmem
              · simp at hmem
            · exact (ih (process_signal cfg s sig last).state).1 hcb hmem
          · intro hcb
            rw [process_signals] at hcb ⊢
            simp only [hexn] at hcb ⊢
            have hih := (ih (process_signal cfg s sig last).state).2 hcb
            refine ⟨?_, hih.2⟩
            rw [List.append_assoc, List.getLast?_append_of_ne_nil]
            · rw [List.getLast?_append_of_ne_nil]
              · exact hih.1
              · intro hnil
                rw [hnil] at hih
                simp at hih
            · intro hnil
              simp at hnil

/-- A stopped engine ignores ticks entirely. -/
theorem process_tick_stopped (cfg : EngineCfg) (s : EngineState)
    (last : Option ℚ) (strat : Except Unit (List (Signal ℚ)))
    (h : s.running = false) :
    process_tick cfg s last strat = ⟨s, [], false⟩ := by
  simp [process_tick, h]

/-- A stopped engine produces empty event lists forever. -/
theorem run_engine_stopped (cfg : EngineCfg)
    (inputs : List (Option ℚ × Except Unit (List (Signal ℚ)))) :
    ∀ s : EngineState, s.running = false →
      ∀ evs ∈ (run_engine cfg s inputs).2, evs = [] := by
  induction inputs with
  | nil => intro s _ evs hm; simp [run_engine] at hm
  | cons i rest ih =>
      intro s h evs hm
      rcases i with ⟨last, strat⟩
      rw [run_engine, process_tick_stopped cfg s last strat h] at hm
      simp only [List.mem_cons] at hm
      rcases hm with rfl | hm
      · rfl
      · exact ih s h evs hm

/-- Claim C6: when CircuitBreakerTripped is caught while processing a
signal of a tick, the engine stops (running becomes false), the
CircuitBreaker event is the last event produced for that tick, and every
subsequent process_tick call returns the empty event list. -/
theorem C6_circuit_breaker_terminal (cfg : EngineCfg) (s : EngineState)
    (last : Option ℚ) (strat : Except Unit (List (Signal ℚ)))
    (h : EngineEvent.circuit_breaker ∈ (process_tick cfg s last strat).events) :
    (process_tick cfg s last strat).state.running = false ∧
    (process_tick cfg s last strat).events.getLast? = some .circuit_breaker ∧
    ∀ inputs,
      ∀ evs ∈ (run_engine cfg (process_tick cfg s last strat).state inputs).2,
        evs = [] := by
  by_cases hrun : s.running = false
  · rw [process_tick_stopped cfg s last strat hrun] at h
    simp at h
  · simp only [Bool.not_eq_false] at hrun
    rcases last with _ | lastPrice
    · rw [process_tick] at h
      simp [hrun] at h
    · rcases strat with _ | sigs
      · rw [process_tick] at h
        simp [hrun] at h
      · rw [process_tick] at h ⊢
        rw [if_neg (by simp [hrun])] at h ⊢
        by_cases hcb :
          (process_signals cfg { s with tick_count := s.tick_count + 1 }
            lastPrice sigs).cb_caught
        · have h2 := (process_signals_cb cfg lastPrice sigs
            { s with tick_count := s.tick_count + 1 }).2 hcb
          exact ⟨h2.2, h2.1,
            fun inputs evs hm => run_engine_stopped cfg inputs _ h2.2 evs hm⟩
        · exact absurd h ((process_signals_cb cfg lastPrice sigs
            { s with tick_count := s.tick_count + 1 }).1 (by simpa using hcb))

/-- Witness for C6_circuit_breaker_terminal: a BUY 1 MARKET at last 200
with equity 1000 and max_position_size_pct 10 trips the size check; the
tick's last event is CircuitBreaker and the engine stops. -/
theorem C6_circuit_breaker_terminal_witness :
    (process_tick ⟨⟨2, 50, 10, 3, true⟩, ⟨1000, 1000000⟩, 1000, false⟩
        ⟨initPosition, initRisk, true, 0, 0, none⟩ (some 200)
        (.ok [⟨.BUY, 1, .MARKET, none, none⟩])).state.running = false ∧
    (process_tick ⟨⟨2, 50, 10, 3, true⟩, ⟨1000, 1000000⟩, 1000, false⟩
        ⟨initPosition, initRisk, true, 0, 0, none⟩ (some 200)
        (.ok [⟨.BUY, 1, .MARKET, none, none⟩])).events.getLast?
      = some .circuit_breaker := by
  have h := C6_circuit_breaker_terminal
    ⟨⟨2, 50, 10, 3, true⟩, ⟨1000, 1000000⟩, 1000, false⟩
    ⟨initPosition, initRisk, true, 0, 0, none⟩ (some 200)
    (.ok [⟨.BUY, 1, .MARKET, none, none⟩])
    (by norm_num [process_tick, process_signals, process_signal, fill_price_of,
      InventoryRiskManager.validate_inventory, RiskManager.validate_position_size,
      RiskManager.increment_open_trades, Side.dir, initPosition, initRisk,
      abs_of_pos, abs_zero])
  exact ⟨h.1, h.2.1⟩

/-- Claim C3, amended: the engine never silently drops a signal it
begins processing — every handled signal contributes at least one event
(TradeExecuted, SignalRejected, CircuitBreaker or Error) — and whenever
position.on_trade is applied for a signal AND no exception escapes the
signal step (in particular register_trade_pnl does not trip), a
TradeExecuted event carrying the signal's payload is emitted. -/
theorem C3_no_silent_drop (cfg : EngineCfg) (last : ℚ)
    (sigs : List (Signal ℚ)) :
    (∀ s : EngineState,
      handled_signals cfg s last sigs
        ≤ (process_signals cfg s last sigs).events.length) ∧
    (∀ (s : EngineState) (sig : Signal ℚ),
      (process_signal cfg s sig last).exn = none →
      (process_signal cfg s sig last).state.position ≠ s.position →
      ∃ fp pnl rt qq ap, (process_signal cfg s sig last).events
        = [.trade_executed sig.side sig.size fp sig.tag pnl rt qq ap
            cfg.equity]) := by
  constructor
  · induction sigs with
    | nil => intro s; simp [handled_signals, process_signals]
    | cons sig rest ih =>
        intro s
        rcases hexn : (process_signal cfg s sig last).exn with _ | e
        · rw [handled_signals, process_signals]
          simp only [hexn, List.length_append]
          have h1 := process_signal_events_length cfg s sig last hexn
          have h2 := ih (process_signal cfg s sig last).state
          omega
        · have h0 := (process_signal_shape cfg s sig last).2 (by simp [hexn])
          cases e
          case circuitBreakerTripped =>
            rw [handled_signals, process_signals]
            simp [hexn, h0]
          all_goals
            rw [handled_signals, process_signals]
            simp only [hexn, h0, List.length_append, List.nil_append,
              List.length_cons, List.length_nil]
            have h2 := ih (process_signal cfg s sig last).state
            omega
  · intro s sig hexn hpos
    rcases (process_signal_shape cfg s sig last).1 hexn with ⟨hp, _, _⟩ | htr
    · exact absurd hp hpos
    · exact htr

/-- Witness for C3_no_silent_drop: a clean BUY 1 MARKET at 100 under
permissive limits executes, changes the position, and its event list is
the TradeExecuted singleton with the signal's payload. -/
theorem C3_no_silent_drop_witness :
    ∃ fp pnl rt qq ap,
      (process_signal ⟨⟨2, 1000000, 1000000, 5, true⟩, ⟨1000, 1000000⟩, 1000, true⟩
          ⟨initPosition, initRisk, true, 0, 0, none⟩
          ⟨.BUY, 1, .MARKET, none, none⟩ 100).events
        = [.trade_executed .BUY 1 fp none pnl rt qq ap 1000] := by
  refine (C3_no_silent_drop
      ⟨⟨2, 1000000, 1000000, 5, true⟩, ⟨1000, 1000000⟩, 1000, true⟩ 100 []).2
    ⟨initPosition, initRisk, true, 0, 0, none⟩ ⟨.BUY, 1, .MARKET, none, none⟩
    ?_ ?_ <;>
    norm_num [process_signal, fill_price_of,
      InventoryRiskManager.validate_inventory, RiskManager.validate_position_size,
      RiskManager.increment_open_trades, RiskManager.register_trade_pnl,
      RiskManager.check_daily_loss, RiskManager.decrement_open_trades,
      PositionManager.on_trade, PositionManager.open_new_position, Side.dir,
      initPosition, initRisk, abs_of_pos, abs_zero]

/-- Claim C3 counterexample: with max_daily_loss_value = 50, a SELL 1
MARKET at last 40 against a long 1 @ 100 realizes −60; position.on_trade
is applied (the position becomes flat with realized_pnl = −60), but
register_trade_pnl trips the daily-loss breaker before the TradeExecuted
event is appended: the tick's events are exactly [CircuitBreaker], so no
TradeExecuted event for the signal exists. -/
theorem C3_counterexample_trade_without_event :
    (process_tick ⟨⟨2, 50, 100, 5, true⟩, ⟨1000, 1000000⟩, 1000, true⟩
        ⟨⟨1, 100, 0⟩, initRisk, true, 0, 0, none⟩ (some 40)
        (.ok [⟨.SELL, 1, .MARKET, none, none⟩])).events
      = [.circuit_breaker] ∧
    (process_tick ⟨⟨2, 50, 100, 5, true⟩, ⟨1000, 1000000⟩, 1000, true⟩
        ⟨⟨1, 100, 0⟩, initRisk, true, 0, 0, none⟩ (some 40)
        (.ok [⟨.SELL, 1, .MARKET, none, none⟩])).state.position
      = ⟨0, 0, -60⟩ := by
  norm_num [process_tick, process_signals, process_signal, fill_price_of,
    InventoryRiskManager.validate_inventory, RiskManager.validate_position_size,
    RiskManager.increment_open_trades, PositionManager.on_trade,
    PositionManager.close_or_reverse, RiskManager.register_trade_pnl,
    RiskManager.check_daily_loss, RiskManager.trigger_circuit_breaker,
    RiskManager.decrement_open_trades, Side.dir, initRisk, min_def,
    abs_of_pos, abs_of_nonneg, abs_zero]

/-- Claim C7: when validate_inventory rejects a signal with
InventoryLimitExceeded, exactly one SignalRejected event with reason
inventory_limit_exceeded is appended for that signal, the position and
risk-manager state are untouched (only the observability field
last_equity is refreshed), and the loop continues with the remaining
signals of the tick from that same position and risk state. -/
theorem C7_inventory_rejection_continues (cfg : EngineCfg) (s : EngineState)
    (sig : Signal ℚ) (rest : List (Signal ℚ)) (last fp : ℚ)
    (hfp : fill_price_of sig last = .ok fp)
    (hrej : InventoryRiskManager.validate_inventory cfg.invLimits
        s.position.qty sig.side sig.size fp cfg.equity
        = .error .inventoryLimitExceeded) :
    process_signals cfg s last (sig :: rest)
      = ⟨(process_signals cfg { s with last_equity := some cfg.equity }
            last rest).state,
         .signal_rejected .inventory_limit_exceeded sig.side sig.size fp sig.tag
           :: (process_signals cfg { s with last_equity := some cfg.equity }
                last rest).events,
         (process_signals cfg { s with last_equity := some cfg.equity }
            last rest).cb_caught⟩ := by
  have hps : process_signal cfg s sig last
      = ⟨{ s with last_equity := some cfg.equity },
         [.signal_rejected .inventory_limit_exceeded sig.side sig.size fp
            sig.tag], none⟩ := by
    simp [process_signal, hfp, hrej]
  rw [process_signals, hps]
  rfl

/-- Witness for C7_inventory_rejection_continues at the spec's E4
numbers: max_abs_qty 0.02, position 0.015, BUY 0.01 at 100, with a
further SELL signal still to process. -/
theorem C7_inventory_rejection_continues_witness :
    process_signals ⟨⟨2, 50, 100, 3, true⟩, ⟨0.02, 1000000⟩, 1000, true⟩
        ⟨⟨0.015, 100, 0⟩, initRisk, true, 0, 0, none⟩ 100
        [⟨.BUY, 0.01, .MARKET, none, none⟩, ⟨.SELL, 0.01, .MARKET, none, none⟩]
      = ⟨(process_signals ⟨⟨2, 50, 100, 3, true⟩, ⟨0.02, 1000000⟩, 1000, true⟩
            ⟨⟨0.015, 100, 0⟩, initRisk, true, 0, 0, some 1000⟩ 100
            [⟨.SELL, 0.01, .MARKET, none, none⟩]).state,
         .signal_rejected .inventory_limit_exceeded .BUY 0.01 100 none
           :: (process_signals ⟨⟨2, 50, 100, 3, true⟩, ⟨0.02, 1000000⟩, 1000, true⟩
                ⟨⟨0.015, 100, 0⟩, initRisk, true, 0, 0, some 1000⟩ 100
                [⟨.SELL, 0.01, .MARKET, none, none⟩]).events,
         (process_signals ⟨⟨2, 50, 100, 3, true⟩, ⟨0.02, 1000000⟩, 1000, true⟩
            ⟨⟨0.015, 100, 0⟩, initRisk, true, 0, 0, some 1000⟩ 100
            [⟨.SELL, 0.01, .MARKET, none, none⟩]).cb_caught⟩ := by
  exact C7_inventory_rejection_continues
    ⟨⟨2, 50, 100, 3, true⟩, ⟨0.02, 1000000⟩, 1000, true⟩
    ⟨⟨0.015, 100, 0⟩, initRisk, true, 0, 0, none⟩
    ⟨.BUY, 0.01, .MARKET, none, none⟩ [⟨.SELL, 0.01, .MARKET, none, none⟩]
    100 100 rfl
    (by norm_num [InventoryRiskManager.validate_inventory, Side.dir,
      abs_of_pos])

/-- Claim C9 counterexample: a stream and strategy for which the run at
slippage_bps = 1 executes the round trips BUY 1, SELL 1, BUY 1, SELL 1
(net_pnl −50.035), while the identically configured run at slippage_bps =
2 has a higher buy fill that pushes the third signal over the inventory
notional limit (10.002% of equity): that BUY is rejected, the losing
second round trip never happens, and net_pnl is −0.04 — strictly larger.
Doubling slippage_bps does not strictly worsen net_pnl on every stream
with a round trip. -/
theorem C9_counterexample_slippage_not_monotone :
    (BacktestEngine.run ⟨2, 1000000, 100, 5, true⟩ ⟨1, 10.002⟩ ⟨1000, 0, 1⟩
        (scripted_on_tick [[⟨.BUY, 1, .MARKET, none, none⟩],
          [⟨.SELL, 1, .MARKET, none, none⟩], [⟨.BUY, 1, .MARKET, none, none⟩],
          [⟨.SELL, 1, .MARKET, none, none⟩]])
        [⟨some 100, 1⟩, ⟨some 100, 2⟩, ⟨some 100, 3⟩, ⟨some 50, 4⟩] 0).map
        (fun r => r.trades.map fun t => (t.side, t.size))
      = some [(.BUY, 1), (.SELL, 1), (.BUY, 1), (.SELL, 1)] ∧
    (BacktestEngine.run ⟨2, 1000000, 100, 5, true⟩ ⟨1, 10.002⟩ ⟨1000, 0, 1⟩
        (scripted_on_tick [[⟨.BUY, 1, .MARKET, none, none⟩],
          [⟨.SELL, 1, .MARKET, none, none⟩], [⟨.BUY, 1, .MARKET, none, none⟩],
          [⟨.SELL, 1, .MARKET, none, none⟩]])
        [⟨some 100, 1⟩, ⟨some 100, 2⟩, ⟨some 100, 3⟩, ⟨some 50, 4⟩] 0).map
        (fun r => r.summary.net_pnl) = some (-50.035) ∧
    (BacktestEngine.run ⟨2, 1000000, 100, 5, true⟩ ⟨1, 10.002⟩ ⟨1000, 0, 2⟩
        (scripted_on_tick [[⟨.BUY, 1, .MARKET, none, none⟩],
          [⟨.SELL, 1, .MARKET, none, none⟩], [⟨.BUY, 1, .MARKET, none, none⟩],
          [⟨.SELL, 1, .MARKET, none, none⟩]])
        [⟨some 100, 1⟩, ⟨some 100, 2⟩, ⟨some 100, 3⟩, ⟨some 50, 4⟩] 0).map
        (fun r => r.summary.net_pnl) = some (-0.04) ∧
    ¬ ((-0.04 : ℚ) < -50.035) := by
  refine ⟨?_, ?_, ?_, by norm_num⟩ <;>
    norm_num [BacktestEngine.run, BacktestEngine.run_ticks,
      BacktestEngine.exec_signals, BacktestEngine.execute_signal,
      BacktestEngine.apply_slippage, BacktestEngine.record_equity,
      BacktestEngine.build_summary, BacktestEngine.compute_max_drawdown,
      BacktestEngine.max_drawdown_loop, initBacktest, scripted_on_tick,
      InventoryRiskManager.validate_inventory, RiskManager.validate_position_size,
      RiskManager.increment_open_trades, RiskManager.register_trade_pnl,
      RiskManager.check_daily_loss, RiskManager.decrement_open_trades,
      PositionManager.on_trade, PositionManager.open_new_position,
      PositionManager.close_or_reverse, Side.dir, initPosition, initRisk,
      min_def, abs_of_pos, abs_of_nonneg, abs_of_nonpos, abs_zero]

/-- Claim C9, amended: doubling slippage_bps strictly worsens net_pnl
when the two runs admit the same trades — here the round trip BUY 1 @ 100
then SELL 1 @ 110 with the default fee rate, where net_pnl at 2 bps is
strictly below net_pnl at 1 bps — but not on every stream producing a
round trip, because the slipped fill price feeds the inventory and risk
admission checks and a higher-slippage run can skip a losing trade that
the lower-slippage run executes (see the counterexample). -/
theorem C9_slippage_monotone_same_trades :
    (BacktestEngine.run ⟨2, 1000000, 1000000, 5, true⟩ ⟨1000000, 1000000⟩
        ⟨1000, 0.0004, 1⟩
        (scripted_on_tick [[⟨.BUY, 1, .MARKET, none, none⟩],
          [⟨.SELL, 1, .MARKET, none, none⟩]])
        [⟨some 100, 1⟩, ⟨some 110, 2⟩] 0).map (fun r => r.summary.net_pnl)
      = some 9.8950004 ∧
    (BacktestEngine.run ⟨2, 1000000, 1000000, 5, true⟩ ⟨1000000, 1000000⟩
        ⟨1000, 0.0004, 2⟩
        (scripted_on_tick [[⟨.BUY, 1, .MARKET, none, none⟩],
          [⟨.SELL, 1, .MARKET, none, none⟩]])
        [⟨some 100, 1⟩, ⟨some 110, 2⟩] 0).map (fun r => r.summary.net_pnl)
      = some 9.8740008 ∧
    (9.8740008 : ℚ) < 9.8950004 := by
  refine ⟨?_, ?_, by norm_num⟩ <;>
    norm_num [BacktestEngine.run, BacktestEngine.run_ticks,
      BacktestEngine.exec_signals, BacktestEngine.execute_signal,
      BacktestEngine.apply_slippage, BacktestEngine.record_equity,
      BacktestEngine.build_summary, BacktestEngine.compute_max_drawdown,
      BacktestEngine.max_drawdown_loop, initBacktest, scripted_on_tick,
      InventoryRiskManager.validate_inventory, RiskManager.validate_position_size,
      RiskManager.increment_open_trades, RiskManager.register_trade_pnl,
      RiskManager.check_daily_loss, RiskManager.decrement_open_trades,
      PositionManager.on_trade, PositionManager.open_new_position,
      PositionManager.close_or_reverse, Side.dir, initPosition, initRisk,
      min_def, abs_of_pos, abs_of_nonneg, abs_of_nonpos, abs_zero]

/-- Claim C8: a fresh MeanReversionV1 with lookback_ticks = 5 and
z_threshold = 1 (defaults otherwise), fed last = 100, 100, 100, 100, 102,
emits nothing on the first four ticks (window not yet full) and exactly
one SELL MARKET signal on the fifth, where the mean is 100.4, the sample
variance 0.8 and the z-score 1.6 / sqrt 0.8 ≈ 1.789 ∈ [1, 5). -/
theorem C8_mrv1_sell_on_fifth_tick :
    run_mrv1 ⟨5, 1, 0.001, 10, .both, 5⟩
        [some 100, some 100, some 100, some 100, some 102] ⟨[], 0⟩
      = [[], [], [], [],
         [⟨.SELL, 0.001, .MARKET, none, some ("MEAN_REV_V1")⟩]] := by
  have h0 : (0 : ℝ) < Real.sqrt (4 / 5) := Real.sqrt_pos.mpr (by norm_num)
  have h1 : Real.sqrt (4 / 5) < 8 / 5 := by
    rw [Real.sqrt_lt' (by norm_num : (0 : ℝ) < 8 / 5)]
    norm_num
  have h2 : (8 / 25 : ℝ) < Real.sqrt (4 / 5) := by
    rw [Real.lt_sqrt (by norm_num : (0 : ℝ) ≤ 8 / 25)]
    norm_num
  have hzpos : (0 : ℝ) < 8 / 5 / Real.sqrt (4 / 5) := div_pos (by norm_num) h0
  have hcap : ¬ (5 : ℝ) < 8 / 5 / Real.sqrt (4 / 5) := by
    rw [not_lt, div_le_iff h0]
    nlinarith [h2]
  have hncap : ¬ 8 / 5 / Real.sqrt (4 / 5) < (-5 : ℝ) := by
    exact not_lt.mpr (by linarith [hzpos])
  have habs : ¬ |8 / 5 / Real.sqrt (4 / 5)| < (1 : ℝ) := by
    rw [abs_of_pos hzpos, not_lt, le_div_iff h0]
    nlinarith [h1]
  have hnbuy : ¬ 8 / 5 / Real.sqrt (4 / 5) ≤ (-1 : ℝ) := by
    exact not_le.mpr (by linarith [hzpos])
  have hsell : (1 : ℝ) ≤ 8 / 5 / Real.sqrt (4 / 5) := by
    rw [le_div_iff h0]
    nlinarith [h1]
  have hdiv : Real.sqrt (4 / 5) = Real.sqrt 4 / Real.sqrt 5 :=
    Real.sqrt_div (by norm_num) 5
  rw [hdiv] at h0 hcap hncap habs hnbuy hsell
  norm_num [run_mrv1, MeanReversionV1.on_tick, MeanReversionV1.compute_z_score,
    MeanReversionV1.bias_allows, push_price, List.sum_cons, List.sum_nil,
    List.map_cons, List.map_nil, h0.not_le, hcap, hncap, habs, hnbuy, hsell]

/-- Claim C10: calling increment_open_trades with the breaker not hit and
open_trades already at max_open_trades raises CircuitBreakerTripped, but
the increment is not rolled back — afterwards open_trades is
max_open_trades + 1. -/
theorem C10_increment_not_rolled_back (L : RiskLimits) (s : RiskState)
    (hhit : s.circuit_breaker_hit = false)
    (hmax : s.open_trades = L.max_open_trades) :
    RiskManager.increment_open_trades L s
      = (.error .circuitBreakerTripped,
          { s with open_trades := L.max_open_trades + 1 }) := by
  simp [RiskManager.increment_open_trades, hhit, hmax]

/-- Witness for C10_increment_not_rolled_back at the limits of
tests/test_risk.py: cap 3, three open trades, fourth increment raises and
leaves the counter at 4. -/
theorem C10_increment_not_rolled_back_witness :
    RiskManager.increment_open_trades ⟨2, 50, 10, 3, true⟩ ⟨0, 3, false⟩
      = (.error .circuitBreakerTripped, ⟨0, 4, false⟩) := by
  simpa using C10_increment_not_rolled_back ⟨2, 50, 10, 3, true⟩ ⟨0, 3, false⟩ rfl rfl

end RoboTrader
